import Mathlib

/-
Verification of the double-buffer slot `AtomicResizable<T>` from
`src/utils.h` of the spectral-compressor repository.

The C++ class holds an `active` and an `inactive` instance of a resizeable
type `T`, an atomic boolean `needs_swap`, a mutex `resize_mutex` serializing
writers, and a stored resize strategy `resize_and_clear_fn : (T&, size_t)`.
`get()` test-and-clears the flag with `compare_exchange_strong` and swaps the
two instances when the flag was set; `resize_and_clear(n)` locks the mutex,
clears the flag, runs the strategy on `inactive`, and sets the flag.

The shallow embedding below represents the object as a record and the two
member functions as state-passing Lean functions. The mutex is modelled as a
boolean "held" field (sequentially it is acquired and released inside
`resize_and_clear`). A second record models the same class when the strategy
may throw, and a small event/interleaving semantics models a reader thread
running `get()` concurrently with the individual write steps performed inside
`resize_and_clear`.
-/

variable {T : Type}

/-- Models `std::atomic_bool::compare_exchange_strong(expected, desired)`:
given the current stored value, the expected value and the desired value,
returns the new stored value together with whether the exchange succeeded.
On success the stored value becomes `desired`; on failure it is unchanged. -/
def compareExchangeStrong (current expected desired : Bool) : Bool × Bool :=
  if current = expected then (desired, true) else (current, false)

/-- State of `AtomicResizable<T>` from `src/utils.h`: the stored resize
strategy, the atomic `needs_swap` flag, whether `resize_mutex` is held, and
the two owned instances `active` and `inactive`. -/
structure AtomicResizable (T : Type) where
  resize_and_clear_fn : T → Nat → T
  needs_swap : Bool
  resize_mutex : Bool
  active : T
  inactive : T

/-- The constructor `AtomicResizable(initial, fn)`: `initial` is copied into
both the active and the inactive slot, `needs_swap` starts `false`, and the
mutex starts unlocked. -/
def AtomicResizable.make (initial : T) (fn : T → Nat → T) : AtomicResizable T :=
  { resize_and_clear_fn := fn
    needs_swap := false
    resize_mutex := false
    active := initial
    inactive := initial }

/-- `T& get()` from `src/utils.h`: `needs_swap.compare_exchange_strong(expected
= true, false)`; on success `std::swap(active, inactive)`; finally return a
reference to `active`. Embedded as a function returning the referenced value
together with the updated object state. -/
def AtomicResizable.get (s : AtomicResizable T) : T × AtomicResizable T :=
  let expected := true
  let r := compareExchangeStrong s.needs_swap expected false
  if r.2 then
    let s' : AtomicResizable T :=
      { s with needs_swap := r.1, active := s.inactive, inactive := s.active }
    (s'.active, s')
  else
    let s' : AtomicResizable T := { s with needs_swap := r.1 }
    (s'.active, s')

/-- `void resize_and_clear(size_t new_size)` from `src/utils.h`:
`lock_guard lock(resize_mutex)`, then `needs_swap = false`, then
`resize_and_clear_fn(inactive, new_size)`, then `needs_swap = true`; the
lock_guard releases the mutex when the scope ends. -/
def AtomicResizable.resize_and_clear (s : AtomicResizable T) (new_size : Nat) :
    AtomicResizable T :=
  let s₁ := { s with resize_mutex := true }
  let s₂ := { s₁ with needs_swap := false }
  let s₃ := { s₂ with inactive := s₂.resize_and_clear_fn s₂.inactive new_size }
  let s₄ := { s₃ with needs_swap := true }
  { s₄ with resize_mutex := false }

/-- State of `AtomicResizable<T>` when the stored resize strategy may throw.
The strategy mutates its first argument in place and may exit by exception,
so its embedding returns the value it leaves behind in `inactive` together
with `true` for a normal return and `false` for an exceptional exit. -/
structure AtomicResizableThrowing (T : Type) where
  resize_and_clear_fn : T → Nat → T × Bool
  needs_swap : Bool
  resize_mutex : Bool
  active : T
  inactive : T

/-- `get()` for the throwing-strategy model; the body is the same as
`AtomicResizable.get` (the strategy is not involved in `get`). -/
def AtomicResizableThrowing.get (s : AtomicResizableThrowing T) :
    T × AtomicResizableThrowing T :=
  let expected := true
  let r := compareExchangeStrong s.needs_swap expected false
  if r.2 then
    let s' : AtomicResizableThrowing T :=
      { s with needs_swap := r.1, active := s.inactive, inactive := s.active }
    (s'.active, s')
  else
    let s' : AtomicResizableThrowing T := { s with needs_swap := r.1 }
    (s'.active, s')

/-- `resize_and_clear(new_size)` when the strategy may throw. The returned
boolean is `true` on normal return and `false` when the strategy's exception
propagates to the caller. In both cases the `lock_guard` releases
`resize_mutex` when the scope unwinds; on the exceptional path the final
`needs_swap = true` store is never executed. -/
def AtomicResizableThrowing.resize_and_clear (s : AtomicResizableThrowing T)
    (new_size : Nat) : AtomicResizableThrowing T × Bool :=
  let s₁ := { s with resize_mutex := true }
  let s₂ := { s₁ with needs_swap := false }
  let r := s₂.resize_and_clear_fn s₂.inactive new_size
  let s₃ := { s₂ with inactive := r.1 }
  if r.2 then
    ({ s₃ with needs_swap := true, resize_mutex := false }, true)
  else
    ({ s₃ with resize_mutex := false }, false)

/-- One atomic write step performed by the control thread inside
`resize_and_clear`: clearing the flag, a store to `inactive` (the strategy's
in-place mutation, possibly an intermediate partial state), or setting the
flag. -/
inductive WriterStep (T : Type) where
  | clearFlag : WriterStep T
  | writeInactive : T → WriterStep T
  | setFlag : WriterStep T
deriving DecidableEq

/-- An event of the two-thread system: a reader-thread `get()` call, or one
writer step from inside `resize_and_clear`. -/
inductive Evt (T : Type) where
  | rd : Evt T
  | wr : WriterStep T → Evt T
deriving DecidableEq

/-- Effect of one event on the slot state; a reader event also produces the
value `get()` returned. -/
def stepEvt (s : AtomicResizable T) : Evt T → AtomicResizable T × Option T
  | .rd => ((s.get).2, some (s.get).1)
  | .wr .clearFlag => ({ s with needs_swap := false }, none)
  | .wr (.writeInactive v) => ({ s with inactive := v }, none)
  | .wr .setFlag => ({ s with needs_swap := true }, none)

/-- Run a sequence of events, collecting the values observed by the reader. -/
def runEvts (s : AtomicResizable T) : List (Evt T) → AtomicResizable T × List T
  | [] => (s, [])
  | e :: es =>
    let p := stepEvt s e
    let r := runEvts p.1 es
    (r.1, p.2.toList ++ r.2)

/-- Recognizes a reader event. -/
def isRd : Evt T → Bool
  | .rd => true
  | _ => false

/-- Recognizes the events that may occur while the strategy is running:
reader calls and the strategy's stores to `inactive`. -/
def isMidEvt : Evt T → Bool
  | .rd => true
  | .wr (.writeInactive _) => true
  | _ => false

/-- The value stored by an event, when it is a store to `inactive`. -/
def writeVal : Evt T → Option T
  | .wr (.writeInactive v) => some v
  | _ => none

/-- The last value stored to `inactive` by a list of events, if any. -/
def lastWrite : List (Evt T) → Option T
  | [] => none
  | e :: es =>
    match lastWrite es with
    | some v => some v
    | none => writeVal e

/-- Concrete resize strategy for witnesses over `T = List Nat`: resize to the
requested length and clear to zeros. -/
def demoFn : List Nat → Nat → List Nat := fun _ n => List.replicate n 0

/-- Concrete slot over `List Nat` with logical size 4, as in the spec's
scenario. -/
def demoSlot : AtomicResizable (List Nat) :=
  AtomicResizable.make (List.replicate 4 1) demoFn

/-- Concrete slot over `Nat` (the resource is identified with its size) used
by the interleaving witness. -/
def demoNatSlot : AtomicResizable Nat :=
  AtomicResizable.make 4 (fun _ n => n)

/-- Concrete throwing slot: the strategy leaves a partial value behind and
throws on every call. -/
def demoThrowSlot : AtomicResizableThrowing Nat :=
  { resize_and_clear_fn := fun x _ => (x + 1, false)
    needs_swap := false
    resize_mutex := false
    active := 4
    inactive := 4 }

/-- Concrete throwing slot with a pending (not yet consumed) swap. -/
def demoThrowPending : AtomicResizableThrowing Nat :=
  { demoThrowSlot with needs_swap := true, active := 4, inactive := 16 }

/- ------------------------------------------------------------------ -/
/- Helper lemmas -/
/- ------------------------------------------------------------------ -/

/-- Closed form of `get`: with the flag set it swaps and returns the old
inactive instance, otherwise it returns the active instance unchanged. -/
theorem get_spec (s : AtomicResizable T) :
    s.get = if s.needs_swap then
      (s.inactive,
        { s with needs_swap := false, active := s.inactive, inactive := s.active })
    else (s.active, s) := by
  rcases s with ⟨f, ns, m, a, i⟩
  cases ns <;> rfl

/-- A second `get` right after a `get` returns the same value and leaves the
state fixed (the first `get` always leaves the flag cleared). -/
theorem get_after_get (s : AtomicResizable T) :
    ((s.get).2).get = ((s.get).1, (s.get).2) := by
  rcases s with ⟨f, ns, m, a, i⟩
  cases ns <;> rfl

/- ------------------------------------------------------------------ -/
/- Claim theorems -/
/- ------------------------------------------------------------------ -/

/-- C2: `get()` compare-and-swaps the flag from true to false; when the flag
was true it exchanges the identities of `active` and `inactive` in place and
returns the new active instance; when it was false it returns the existing
active instance with the state unchanged. In both cases the returned value is
the active instance of the resulting state. -/
theorem get_cas_swap_semantics (s : AtomicResizable T) :
    s.get = (if s.needs_swap then
        (s.inactive,
          { s with needs_swap := false, active := s.inactive, inactive := s.active })
      else (s.active, s))
    ∧ (s.get).1 = ((s.get).2).active := by
  rcases s with ⟨f, ns, m, a, i⟩
  cases ns <;> exact ⟨rfl, rfl⟩

/-- C5: after a single `resize_and_clear n` the flag `needs_swap` is true, and
the next `get()` returns exactly the instance obtained by applying the stored
resize strategy to the old inactive instance with argument `n`. -/
theorem resize_then_get_returns_resized (s : AtomicResizable T) (n : Nat) :
    (s.resize_and_clear n).needs_swap = true
    ∧ ((s.resize_and_clear n).get).1 = s.resize_and_clear_fn s.inactive n := by
  rcases s with ⟨f, ns, m, a, i⟩
  exact ⟨rfl, rfl⟩

/-- C6: `get()` is total: for every slot state it returns one of the two
stored instances; there is no error or failure path (the embedding is a plain
function, with no `Option`/`Except`). -/
theorem get_total (s : AtomicResizable T) :
    (s.get).1 = s.active ∨ (s.get).1 = s.inactive := by
  rcases s with ⟨f, ns, m, a, i⟩
  cases ns
  · exact Or.inl rfl
  · exact Or.inr rfl

/-- C7: `resize_and_clear` never modifies the active instance (the one
visible to the reader); it also leaves the stored strategy unchanged, so only
`inactive` and the swap flag are mutated (the mutex is re-released). -/
theorem resize_preserves_active (s : AtomicResizable T) (n : Nat) :
    (s.resize_and_clear n).active = s.active
    ∧ (s.resize_and_clear n).resize_and_clear_fn = s.resize_and_clear_fn
    ∧ (s.resize_and_clear n).resize_mutex = false := by
  rcases s with ⟨f, ns, m, a, i⟩
  exact ⟨rfl, rfl, rfl⟩

/-- C8: `get()` never mutates resource contents, only the identities of the
two stored instances: the resulting state holds the same two values, either
in place or exchanged; a repeated `get` returns the same value and leaves the
state fixed; and with the swap flag false `get` is the identity on the state
and returns the active instance. -/
theorem get_only_swaps_identities (s : AtomicResizable T) :
    ((((s.get).2).active = s.active ∧ ((s.get).2).inactive = s.inactive)
      ∨ (((s.get).2).active = s.inactive ∧ ((s.get).2).inactive = s.active))
    ∧ (((s.get).2).get = ((s.get).1, (s.get).2))
    ∧ (s.needs_swap = false → s.get = (s.active, s)) := by
  refine ⟨?_, get_after_get s, ?_⟩
  · rcases s with ⟨f, ns, m, a, i⟩
    cases ns
    · exact Or.inl ⟨rfl, rfl⟩
    · exact Or.inr ⟨rfl, rfl⟩
  · intro h
    rcases s with ⟨f, ns, m, a, i⟩
    cases ns
    · rfl
    · exact absurd h (by simp)

/-- C9: in two back-to-back `resize_and_clear` calls with no intervening
`get()`, the second call applies the strategy to the instance already mutated
by the first call: the final inactive instance, and the value the next
`get()` returns, are the strategy applied cumulatively. -/
theorem double_resize_is_cumulative (s : AtomicResizable T) (n1 n2 : Nat) :
    ((s.resize_and_clear n1).resize_and_clear n2).inactive
      = s.resize_and_clear_fn (s.resize_and_clear_fn s.inactive n1) n2
    ∧ (((s.resize_and_clear n1).resize_and_clear n2).get).1
      = s.resize_and_clear_fn (s.resize_and_clear_fn s.inactive n1) n2 := by
  rcases s with ⟨f, ns, m, a, i⟩
  exact ⟨rfl, rfl⟩

/-- Running a concatenation of event lists runs them in sequence and
concatenates the observed values. -/
theorem runEvts_append (l₁ l₂ : List (Evt T)) (s : AtomicResizable T) :
    runEvts s (l₁ ++ l₂) =
      ((runEvts (runEvts s l₁).1 l₂).1,
        (runEvts s l₁).2 ++ (runEvts (runEvts s l₁).1 l₂).2) := by
  induction l₁ generalizing s with
  | nil => rfl
  | cons e es ih =>
    simp only [List.cons_append, runEvts, List.append_eq, ih, List.append_assoc]

/-- A run consisting only of reader events: every `get()` returns the same
value (the pending instance if a swap was pending, otherwise the active one),
and after the first call the state is fixed. -/
theorem runEvts_all_rd (g : List (Evt T)) (s : AtomicResizable T)
    (h : g.all isRd = true) :
    runEvts s g =
      ((if g.isEmpty then s else (s.get).2),
        List.replicate g.length (s.get).1) := by
  induction g generalizing s with
  | nil => rfl
  | cons e es ih =>
    rw [List.all_cons, Bool.and_eq_true] at h
    cases e with
    | wr w => simp [isRd] at h
    | rd =>
      simp only [runEvts, stepEvt, ih _ h.2, get_after_get, Option.toList_some,
        List.isEmpty_cons, List.length_cons, List.replicate_succ, ite_self,
        List.singleton_append, Bool.false_eq_true, if_false]

/-- A run of reader events and stores to `inactive`, starting with the swap
flag clear: the reader only ever observes the active instance (which never
changes), and the final state differs from the initial one only in
`inactive`, which holds the last value stored (if any). -/
theorem runEvts_mid (l : List (Evt T)) (s : AtomicResizable T)
    (hflag : s.needs_swap = false) (h : l.all isMidEvt = true) :
    (runEvts s l).1 = { s with inactive := (lastWrite l).getD s.inactive }
    ∧ ∀ t ∈ (runEvts s l).2, t = s.active := by
  induction l generalizing s with
  | nil => exact ⟨rfl, by intro t ht; exact absurd ht (by simp [runEvts])⟩
  | cons e es ih =>
    rw [List.all_cons, Bool.and_eq_true] at h
    cases e with
    | rd =>
      have hget : s.get = (s.active, s) := by
        rw [get_spec, hflag]; simp
      have ih' := ih s hflag h.2
      constructor
      · simp only [runEvts, stepEvt, hget, ih'.1, lastWrite, writeVal]
        cases lastWrite es <;> rfl
      · intro t ht
        simp only [runEvts, stepEvt, hget, Option.toList_some,
          List.singleton_append, List.mem_cons] at ht
        rcases ht with ht | ht
        · exact ht
        · exact ih'.2 t ht
    | wr w =>
      cases w with
      | clearFlag => simp [isMidEvt] at h
      | setFlag => simp [isMidEvt] at h
      | writeInactive v =>
        have hflag' : ({ s with inactive := v } : AtomicResizable T).needs_swap
            = false := hflag
        have ih' := ih { s with inactive := v } hflag' h.2
        constructor
        · simp only [runEvts, stepEvt]
          rw [ih'.1]
          cases hlw : lastWrite es with
          | some wv => simp [lastWrite, hlw]
          | none => simp [lastWrite, hlw, writeVal]
        · intro t ht
          simp only [runEvts, stepEvt, Option.toList_none,
            List.nil_append] at ht
          exact ih'.2 t ht

/-- C4: while a `resize_and_clear` is in progress — its clear-flag step, the
strategy's stores to `inactive` (including any intermediate partial states),
and its set-flag step, interleaved arbitrarily with reader `get()` calls —
the reader only ever observes the pre-resize active instance, a previously
published pending instance, or the fully-completed resize result `vfin` (the
last value the strategy stores); never an intermediate partial value. -/
theorem reader_never_observes_partial_resize
    (s : AtomicResizable T) (g0 l g1 : List (Evt T)) (vfin t : T)
    (h0 : g0.all isRd = true) (hmid : l.all isMidEvt = true)
    (h1 : g1.all isRd = true) (hlast : lastWrite l = some vfin)
    (ht : t ∈ (runEvts s (g0 ++ Evt.wr WriterStep.clearFlag ::
        (l ++ Evt.wr WriterStep.setFlag :: g1))).2) :
    t = s.active ∨ (s.needs_swap = true ∧ t = s.inactive) ∨ t = vfin := by
  rw [runEvts_append, runEvts_all_rd g0 s h0] at ht
  set s₁ : AtomicResizable T := if g0.isEmpty then s else (s.get).2 with hs₁
  simp only [runEvts, stepEvt, Option.toList_none, List.nil_append] at ht
  rw [runEvts_append] at ht
  have hm := runEvts_mid l ({ s₁ with needs_swap := false }) rfl hmid
  rw [hlast, Option.getD_some] at hm
  rw [hm.1] at ht
  simp only [runEvts, stepEvt, Option.toList_none, List.nil_append] at ht
  rw [runEvts_all_rd g1 _ h1] at ht
  simp only [List.mem_append] at ht
  rcases ht with ht | ht | ht
  · have h2 := List.eq_of_mem_replicate ht
    rw [get_spec] at h2
    cases hns : s.needs_swap
    · rw [hns] at h2
      simp only [Bool.false_eq_true, if_false] at h2
      exact Or.inl h2
    · rw [hns] at h2
      simp only [if_true] at h2
      exact Or.inr (Or.inl ⟨rfl, h2⟩)
  · have h2 : t = s₁.active := hm.2 t ht
    rw [hs₁] at h2
    by_cases hg : g0.isEmpty
    · rw [if_pos hg] at h2
      exact Or.inl h2
    · rw [if_neg hg, get_spec] at h2
      cases hns : s.needs_swap
      · rw [hns] at h2
        simp only [Bool.false_eq_true, if_false] at h2
        exact Or.inl h2
      · rw [hns] at h2
        simp only [if_true] at h2
        exact Or.inr (Or.inl ⟨rfl, h2⟩)
  · have h2 := List.eq_of_mem_replicate ht
    rw [get_spec] at h2
    simp only [if_true] at h2
    exact Or.inr (Or.inr h2)

/-- C1: after two back-to-back `resize_and_clear n1`, `resize_and_clear n2`
calls with no intervening `get()`, when the strategy always resizes to its
size argument, the next `get()` returns an instance of size `n2` only, and
(for `n1 ≠ n2`) that instance is not the result of the `n1` resize: the `n1`
result is never observed by the reader. -/
theorem double_resize_reflects_second_size (s : AtomicResizable T)
    (size : T → Nat) (hsize : ∀ x n, size (s.resize_and_clear_fn x n) = n)
    (n1 n2 : Nat) :
    size ((((s.resize_and_clear n1).resize_and_clear n2).get).1) = n2
    ∧ (n1 ≠ n2 →
        (((s.resize_and_clear n1).resize_and_clear n2).get).1
          ≠ s.resize_and_clear_fn s.inactive n1) := by
  have hval : (((s.resize_and_clear n1).resize_and_clear n2).get).1
      = s.resize_and_clear_fn (s.resize_and_clear_fn s.inactive n1) n2 := rfl
  constructor
  · rw [hval, hsize]
  · intro hne heq
    rw [hval] at heq
    have h2 := congrArg size heq
    rw [hsize, hsize] at h2
    exact hne h2.symm

/-- Witness for C1 at the spec's scenario: sizes 8 then 2 on a list slot of
size 4, with the strategy resizing to the requested length and clearing to
zeros; `get()` sees size 2 and never the size-8 instance. -/
theorem double_resize_reflects_second_size_witness :
    List.length ((((demoSlot.resize_and_clear 8).resize_and_clear 2).get).1) = 2
    ∧ (((demoSlot.resize_and_clear 8).resize_and_clear 2).get).1
        ≠ demoSlot.resize_and_clear_fn demoSlot.inactive 8 :=
  ⟨(double_resize_reflects_second_size demoSlot List.length
      (fun x n => by simp [demoSlot, AtomicResizable.make, demoFn]) 8 2).1,
   (double_resize_reflects_second_size demoSlot List.length
      (fun x n => by simp [demoSlot, AtomicResizable.make, demoFn]) 8 2).2
      (by decide)⟩

/-- C3: when the strategy throws during `resize_and_clear n`, the failure
propagates to the caller (result `false`), the mutex is released on the
unwind path, the active instance is unchanged, the swap flag is left false,
and a subsequent `get()` returns the last-good active instance. -/
theorem failed_resize_preserves_reader (s : AtomicResizableThrowing T)
    (n : Nat) (i' : T)
    (hfail : s.resize_and_clear_fn s.inactive n = (i', false)) :
    ((s.resize_and_clear n).2 = false)
    ∧ ((s.resize_and_clear n).1.resize_mutex = false)
    ∧ ((s.resize_and_clear n).1.active = s.active)
    ∧ ((s.resize_and_clear n).1.needs_swap = false)
    ∧ (((s.resize_and_clear n).1.get).1 = s.active) := by
  rcases s with ⟨f, ns, m, a, i⟩
  simp only [AtomicResizableThrowing.resize_and_clear] at *
  rw [hfail]
  exact ⟨rfl, rfl, rfl, rfl, rfl⟩

/-- Witness for C3: a strategy that leaves a partial value and throws; the
failing `resize_and_clear 16` on a size-4 slot leaves the reader on 4. -/
theorem failed_resize_preserves_reader_witness :
    ((demoThrowSlot.resize_and_clear 16).2 = false)
    ∧ ((demoThrowSlot.resize_and_clear 16).1.resize_mutex = false)
    ∧ ((demoThrowSlot.resize_and_clear 16).1.active = demoThrowSlot.active)
    ∧ ((demoThrowSlot.resize_and_clear 16).1.needs_swap = false)
    ∧ (((demoThrowSlot.resize_and_clear 16).1.get).1 = demoThrowSlot.active) :=
  failed_resize_preserves_reader demoThrowSlot 16 5 (by decide)

/-- C10: a failed resize cancels an earlier pending publish: if the flag is
true (a prior successful resize not yet consumed) and the strategy throws
during `resize_and_clear n`, afterwards the flag is false, `get()` is the
identity on the state and returns the active instance, which is unchanged —
so the prior pending result is never swapped in. -/
theorem failed_resize_cancels_pending_swap (s : AtomicResizableThrowing T)
    (n : Nat) (i' : T) (hpend : s.needs_swap = true)
    (hfail : s.resize_and_clear_fn s.inactive n = (i', false)) :
    ((s.resize_and_clear n).1.needs_swap = false)
    ∧ ((s.resize_and_clear n).1.get
        = ((s.resize_and_clear n).1.active, (s.resize_and_clear n).1))
    ∧ ((s.resize_and_clear n).1.active = s.active) := by
  rcases s with ⟨f, ns, m, a, i⟩
  simp only [AtomicResizableThrowing.resize_and_clear] at *
  rw [hfail]
  exact ⟨rfl, rfl, rfl⟩

/-- Witness for C10: a pending publish (flag true, pending value 16) followed
by a failing `resize_and_clear 8`; the pending value is never swapped in. -/
theorem failed_resize_cancels_pending_swap_witness :
    ((demoThrowPending.resize_and_clear 8).1.needs_swap = false)
    ∧ ((demoThrowPending.resize_and_clear 8).1.get
        = ((demoThrowPending.resize_and_clear 8).1.active,
           (demoThrowPending.resize_and_clear 8).1))
    ∧ ((demoThrowPending.resize_and_clear 8).1.active
        = demoThrowPending.active) :=
  failed_resize_cancels_pending_swap demoThrowPending 8 17 (by decide)
    (by decide)

/-- Witness for C4: slot of size 4, a resize to 16 whose strategy first
stores an intermediate value 99, with reader calls interleaved everywhere;
the observation 4 (the pre-resize active instance) satisfies the theorem. -/
theorem reader_never_observes_partial_resize_witness :
    (4 : Nat) = demoNatSlot.active
    ∨ (demoNatSlot.needs_swap = true ∧ (4 : Nat) = demoNatSlot.inactive)
    ∨ (4 : Nat) = 16 :=
  reader_never_observes_partial_resize demoNatSlot
    [Evt.rd]
    [Evt.rd, Evt.wr (WriterStep.writeInactive 99), Evt.rd,
      Evt.wr (WriterStep.writeInactive 16), Evt.rd]
    [Evt.rd, Evt.rd] 16 4
    (by decide) (by decide) (by decide) (by decide) (by decide)

/-- Witness for C8: on a concrete slot with no pending swap, `get()` returns
the active instance and leaves the state unchanged. -/
theorem get_only_swaps_identities_witness :
    demoSlot.needs_swap = false
    ∧ demoSlot.get = (demoSlot.active, demoSlot) :=
  ⟨rfl, (get_only_swaps_identities demoSlot).2.2 rfl⟩
